import Mathlib

/-!
Verification of the OLM-to-PKO manifest conversion script
(boilerplate/openshift/golang-osd-operator/olm_pko_migration.py).

The script's data is YAML documents parsed by a Python YAML library into
dictionaries, lists and scalars.  We embed those values as the inductive
type `Yaml` below, with Python dictionaries modelled as insertion-ordered
association lists over string keys (assignment to an existing key updates
it in place, assignment to a fresh key appends at the end, exactly as in
Python).  Mapping keys are modelled as strings: the manifests this tool
processes use string keys throughout.  Floats and YAML anchors/aliases
are outside the model.  Python exceptions are modelled by `Option`
results (`none` = the operation raised) where the source can raise.
-/

namespace OlmPko

/-- YAML values as produced by the Python YAML parser: null, booleans,
integers, strings, sequences, and mappings. -/
inductive Yaml where
  | null : Yaml
  | bool (b : Bool) : Yaml
  | int (n : Int) : Yaml
  | str (s : String) : Yaml
  | arr (xs : List Yaml) : Yaml
  | map (kvs : List (String × Yaml)) : Yaml

/-- A Python dictionary with string keys: an insertion-ordered association
list.  The first occurrence of a key is the binding (Python dicts have
unique keys; `mapSet` preserves that invariant). -/
abbrev Obj := List (String × Yaml)

/-- Python `d.get(k)` / `d[k]`: the value bound to the first occurrence of
the key, if any. -/
def mapGet (kvs : Obj) (k : String) : Option Yaml :=
  match kvs with
  | [] => none
  | (k', v) :: rest => if k' = k then some v else mapGet rest k

/-- Python `d[k] = v`: update the existing binding in place (keeping its
position), or append a new binding at the end. -/
def mapSet (kvs : Obj) (k : String) (v : Yaml) : Obj :=
  match kvs with
  | [] => [(k, v)]
  | (k', v') :: rest => if k' = k then (k, v) :: rest else (k', v') :: mapSet rest k v

-- PKO constants from the script (PKO_PHASE_ANNOTATION and friends in the
-- source; renamed KEY/VALUE here).
def PKO_PHASE_KEY : String := "package-operator.run/phase"
def PKO_COLLISION_PROTECTION_KEY : String := "package-operator.run/collision-protection"
def PKO_COLLISION_PROTECTION_VALUE : String := "IfNoController"

def PHASE_CRDS : String := "crds"
def PHASE_NAMESPACE : String := "namespace"
def PHASE_RBAC : String := "rbac"
def PHASE_DEPLOY : String := "deploy"
def PHASE_CLEANUP_RBAC : String := "cleanup-rbac"
def PHASE_CLEANUP_DEPLOY : String := "cleanup-deploy"

/-- Helper mirroring the two `if ... not in ...` guards of `annotate`: a
missing key is replaced by a fresh empty dictionary; a present key must
hold a dictionary, otherwise the Python code raises an uncaught TypeError
on the membership test or the item assignment (`none` here). -/
def getObjOr (v : Option Yaml) : Option Obj :=
  match v with
  | none => some []
  | some (Yaml.map o) => some o
  | some _ => none

/-- The function `annotate(manifest, ...)` of the script: ensure
`manifest["metadata"]` and `manifest["metadata"]["annotations"]` exist as
dictionaries, then set the phase key to the given phase and the
collision-protection key to its fixed value. -/
def annotate (manifest : Obj) (phase : String) : Option Obj :=
  match getObjOr (mapGet manifest "metadata") with
  | none => none
  | some md =>
    match getObjOr (mapGet md "annotations") with
    | none => none
    | some ann =>
      some (mapSet manifest "metadata" (Yaml.map (mapSet md "annotations"
        (Yaml.map (mapSet (mapSet ann PKO_PHASE_KEY (Yaml.str phase))
          PKO_COLLISION_PROTECTION_KEY (Yaml.str PKO_COLLISION_PROTECTION_VALUE))))))

/-- The exact placeholder token written by `set_image_template`:
two opening braces, a space, `.config.image`, a space, two closing braces. -/
def imageTemplateValue : String := "\x7b\x7b .config.image \x7d\x7d"

/-- Field lookup on a YAML value: `none` when the value is not a mapping or
lacks the key (in Python both raise, KeyError or TypeError). -/
def yGet (v : Yaml) (k : String) : Option Yaml :=
  match v with
  | Yaml.map kvs => mapGet kvs k
  | _ => none

def isMap (v : Yaml) : Bool :=
  match v with
  | Yaml.map _ => true
  | _ => false

/-- The effect of `container["image"] = "..."` on one element of the
containers list, for elements that are dictionaries. -/
def setImg (c : Yaml) : Yaml :=
  match c with
  | Yaml.map kvs => Yaml.map (mapSet kvs "image" (Yaml.str imageTemplateValue))
  | v => v

/-- The `for container in containers` loop of `set_image_template`: each
dictionary element gets its `image` key set; the first non-dictionary
element raises a TypeError that the caller swallows, so that element and
everything after it are left untouched. -/
def setImages (cs : List Yaml) : List Yaml :=
  match cs with
  | [] => []
  | Yaml.map kvs :: rest => Yaml.map (mapSet kvs "image" (Yaml.str imageTemplateValue)) :: setImages rest
  | c :: rest => c :: rest

/-- The lookup `manifest["spec"]["template"]["spec"]["containers"]`
performed by `set_image_template`: `none` when any step raises KeyError
(missing key) or TypeError (indexing a non-dictionary). -/
def containersOf (manifest : Obj) : Option Yaml :=
  match mapGet manifest "spec" with
  | some (Yaml.map sp) =>
    match mapGet sp "template" with
    | some (Yaml.map tp) =>
      match mapGet tp "spec" with
      | some (Yaml.map ts) => mapGet ts "containers"
      | _ => none
    | _ => none
  | _ => none

/-- `set_image_template(manifest)` of the script.  The whole body is inside
`try ... except (KeyError, TypeError): pass`, so: if the nested lookup
fails at any step the manifest is returned unchanged; if it yields a
non-list the iteration or the element assignment raises before any
mutation (iterating a dict yields string keys, iterating a string yields
characters, and assigning into either raises TypeError), so the manifest
is again unchanged; if it yields a list, elements are mutated in place
left to right until the first non-dictionary element raises. -/
def set_image_template (manifest : Obj) : Obj :=
  match mapGet manifest "spec" with
  | some (Yaml.map sp) =>
    match mapGet sp "template" with
    | some (Yaml.map tp) =>
      match mapGet tp "spec" with
      | some (Yaml.map ts) =>
        match mapGet ts "containers" with
        | some (Yaml.arr cs) =>
          mapSet manifest "spec" (Yaml.map (mapSet sp "template" (Yaml.map (mapSet tp "spec"
            (Yaml.map (mapSet ts "containers" (Yaml.arr (setImages cs))))))))
        | _ => manifest
      | _ => manifest
    | _ => manifest
  | _ => manifest

/-- `get_pko_manifest(operator_name)` of the script, transcribed literally
(including the stray `type: object` entry sitting inside `properties`). -/
def get_pko_manifest (operator_name : String) : Yaml :=
  Yaml.map [
    ("apiVersion", Yaml.str "manifests.package-operator.run/v1alpha1"),
    ("kind", Yaml.str "PackageManifest"),
    ("metadata", Yaml.map [
      ("name", Yaml.str operator_name),
      ("annotations", Yaml.map [("name", Yaml.str "annotation")])]),
    ("spec", Yaml.map [
      ("scopes", Yaml.arr [Yaml.str "Cluster"]),
      ("phases", Yaml.arr [
        Yaml.map [("name", Yaml.str PHASE_CRDS)],
        Yaml.map [("name", Yaml.str PHASE_NAMESPACE)],
        Yaml.map [("name", Yaml.str PHASE_RBAC)],
        Yaml.map [("name", Yaml.str PHASE_DEPLOY)],
        Yaml.map [("name", Yaml.str PHASE_CLEANUP_RBAC)],
        Yaml.map [("name", Yaml.str PHASE_CLEANUP_DEPLOY)]]),
      ("availabilityProbes", Yaml.arr [
        Yaml.map [
          ("probes", Yaml.arr [
            Yaml.map [("condition", Yaml.map [
              ("type", Yaml.str "Available"),
              ("status", Yaml.str "True")])],
            Yaml.map [("fieldsEqual", Yaml.map [
              ("fieldA", Yaml.str ".status.updatedReplicas"),
              ("fieldB", Yaml.str ".status.replicas")])]]),
          ("selector", Yaml.map [("kind", Yaml.map [
            ("group", Yaml.str "apps"),
            ("kind", Yaml.str "Deployment")])])]]),
      ("config", Yaml.map [
        ("openAPIV3Schema", Yaml.map [
          ("properties", Yaml.map [
            ("image", Yaml.map [
              ("description", Yaml.str "Operator image to deploy"),
              ("type", Yaml.str "string"),
              ("default", Yaml.str "None")]),
            ("type", Yaml.str "object")])])])])]

/-- The `spec.phases` entry of a descriptor document. -/
def phasesOf (doc : Yaml) : Option Yaml :=
  match doc with
  | Yaml.map kvs =>
    match mapGet kvs "spec" with
    | some (Yaml.map sp) => mapGet sp "phases"
    | _ => none
  | _ => none

/-! ### Python string rendering -/

mutual

/-- Python repr() of a parsed YAML value, as used by str() on containers.
String escaping inside repr is not modelled (no theorem depends on it). -/
def pyRepr : Yaml → String
  | Yaml.null => "None"
  | Yaml.bool true => "True"
  | Yaml.bool false => "False"
  | Yaml.int n => toString n
  | Yaml.str s => "\x27" ++ s ++ "\x27"
  | Yaml.arr xs => "[" ++ String.intercalate ", " (pyReprList xs) ++ "]"
  | Yaml.map kvs => "\x7b" ++ String.intercalate ", " (pyReprPairs kvs) ++ "\x7d"

def pyReprList : List Yaml → List String
  | [] => []
  | x :: xs => pyRepr x :: pyReprList xs

def pyReprPairs : List (String × Yaml) → List String
  | [] => []
  | (k, v) :: xs => ("\x27" ++ k ++ "\x27: " ++ pyRepr v) :: pyReprPairs xs

end

/-- Python str() of a value, as interpolated by f-strings and print. -/
def pyStr (v : Yaml) : String :=
  match v with
  | Yaml.str s => s
  | v => pyRepr v

/-- Python str() of a `.get` result (None when the key was absent). -/
def pyStrOpt (v : Option Yaml) : String :=
  match v with
  | none => "None"
  | some v => pyStr v

/-! ### annotate_manifests -/

/-- One entry of the list handed to `annotate_manifests`, after the YAML
parse attempt: either the parser raised yaml.YAMLError, or it produced a
value. -/
inductive ParseResult where
  | err : ParseResult
  | ok (v : Yaml) : ParseResult

/-- Diagnostic printed when a document fails to parse (the script appends
the exception text, which is not modelled). -/
def parseErrorDiag : String := "Error parsing manifest"

/-- The effect of processing one document inside the loop of
`annotate_manifests`: the document is kept (with diagnostics printed),
dropped (with diagnostics printed), or an uncaught exception aborts the
whole run. -/
inductive ItemStep where
  | abort : ItemStep
  | keep (m : Obj) (diags : List String) : ItemStep
  | drop (diags : List String) : ItemStep

/-- Lift the possibly-raising `annotate` into an `ItemStep` (an exception
escaping `annotate` is not caught by the loop, which only catches
yaml.YAMLError). -/
def keepAnnotated (m : Obj) (phase : String) : ItemStep :=
  match annotate m phase with
  | none => ItemStep.abort
  | some m2 => ItemStep.keep m2 []

/-- One iteration of the loop of `annotate_manifests`: parse failures are
dropped with a diagnostic; falsy or non-dictionary documents are dropped
silently (`if not manifest or not isinstance(manifest, dict): continue`,
which also drops the empty dictionary since it is falsy); recognized
kinds are annotated with their phase (a Deployment additionally goes
through `set_image_template`); unrecognized kinds are kept unchanged with
an "Unhandled type" diagnostic. -/
def processItem (r : ParseResult) : ItemStep :=
  match r with
  | ParseResult.err => ItemStep.drop [parseErrorDiag]
  | ParseResult.ok v =>
    match v with
    | Yaml.map [] => ItemStep.drop []
    | Yaml.map m =>
      match mapGet m "kind" with
      | some (Yaml.str "CustomResourceDefinition") => keepAnnotated m PHASE_CRDS
      | some (Yaml.str "ClusterRole") => keepAnnotated m PHASE_RBAC
      | some (Yaml.str "ClusterRoleBinding") => keepAnnotated m PHASE_RBAC
      | some (Yaml.str "Role") => keepAnnotated m PHASE_RBAC
      | some (Yaml.str "RoleBinding") => keepAnnotated m PHASE_RBAC
      | some (Yaml.str "ServiceAccount") => keepAnnotated m PHASE_RBAC
      | some (Yaml.str "Service") => keepAnnotated m PHASE_DEPLOY
      | some (Yaml.str "Deployment") =>
        match annotate m PHASE_DEPLOY with
        | none => ItemStep.abort
        | some m2 => ItemStep.keep (set_image_template m2) []
      | some (Yaml.str "ServiceMonitor") => keepAnnotated m PHASE_DEPLOY
      | k => ItemStep.keep m ["Unhandled type: " ++ pyStrOpt k]
    | _ => ItemStep.drop []

/-- `annotate_manifests(manifests)` of the script.  Input: the parse
results for the document strings, in order.  Output: `none` if an
uncaught exception aborted the run, otherwise the kept documents together
with the diagnostics printed, both in processing order. -/
def annotate_manifests (rs : List ParseResult) : Option (List Obj × List String) :=
  match rs with
  | [] => some ([], [])
  | r :: rest =>
    match processItem r with
    | ItemStep.abort => none
    | ItemStep.keep m ds =>
      match annotate_manifests rest with
      | none => none
      | some (ms, ds2) => some (m :: ms, ds ++ ds2)
    | ItemStep.drop ds =>
      match annotate_manifests rest with
      | none => none
      | some (ms, ds2) => some (ms, ds ++ ds2)

/-- Sequential composition of two `annotate_manifests` outcomes: both
succeed and their documents and diagnostics concatenate, or the whole run
aborts. -/
def amCombine (a b : Option (List Obj × List String)) : Option (List Obj × List String) :=
  match a, b with
  | some (ms1, ds1), some (ms2, ds2) => some (ms1 ++ ms2, ds1 ++ ds2)
  | _, _ => none

/-- Whether a parse attempt raised yaml.YAMLError. -/
def isErr (r : ParseResult) : Bool :=
  match r with
  | ParseResult.err => true
  | _ => false

/-! ### write_manifest -/

/-- Outcome of `write_manifest`: an uncaught exception (AttributeError
from name extraction on a non-dictionary metadata value), a skip (the
kind filter fired, nothing written), or exactly one file written under
the given name. -/
inductive WriteResult where
  | raised : WriteResult
  | skipped : WriteResult
  | written (fname : String) : WriteResult

/-- The name extraction of `write_manifest`:
`manifest.get("metadata", {}).get("name", "unknown")`.  When the metadata
key is present but its value is not a dictionary, the value has no `.get`
attribute and Python raises an uncaught AttributeError (`none` here). -/
def getNameField (m : Obj) : Option Yaml :=
  match mapGet m "metadata" with
  | none => some (Yaml.str "unknown")
  | some (Yaml.map md) =>
    match mapGet md "name" with
    | some v => some v
    | none => some (Yaml.str "unknown")
  | some _ => none

/-- The kind filter of `write_manifest`:
`kind in [None, "ClusterPackage", "Package", "PackageManifest"]` where
`kind = manifest.get("kind")`.  A missing key and an explicit null both
compare equal to None; non-string kinds compare unequal to the three
strings. -/
def kindFiltered (kind : Option Yaml) : Bool :=
  match kind with
  | none => true
  | some Yaml.null => true
  | some (Yaml.str s) =>
    s == "ClusterPackage" || s == "Package" || s == "PackageManifest"
  | some _ => false

/-- `write_manifest(manifest, directory, filename, force)` of the script,
as the pure decision of what gets written; directory creation and YAML
serialization are I/O outside the model.  The source computes the name
before the kind filter, so a non-dictionary metadata value raises even
when the filter would have skipped the manifest. -/
def write_manifest (m : Obj) (filename : Option String) (force : Bool) : WriteResult :=
  match getNameField m with
  | none => WriteResult.raised
  | some nameV =>
    if !force && kindFiltered (mapGet m "kind") then WriteResult.skipped
    else
      match filename with
      | some f => WriteResult.written f
      | none =>
        WriteResult.written (pyStrOpt (mapGet m "kind") ++ "-" ++ pyStr nameV ++
          (match mapGet m "kind" with
           | some (Yaml.str s) => if s == "Deployment" then ".yaml.gotmpl" else ".yaml"
           | _ => ".yaml"))

/-- Number of files produced by one `write_manifest` call. -/
def filesWritten (r : WriteResult) : Nat :=
  match r with
  | WriteResult.written _ => 1
  | _ => 0

/-! ### get_manifest_files -/

/-- A directory entry for modelling `get_manifest_files`: a regular file
or a subdirectory with its entries.  The root handed to the function is
either a missing path (`none`) or a directory listing. -/
inductive Entry where
  | file (nm : String) : Entry
  | dir (nm : String) (es : List Entry) : Entry

def ename (e : Entry) : String :=
  match e with
  | Entry.file n => n
  | Entry.dir n _ => n

def isFile (e : Entry) : Bool :=
  match e with
  | Entry.file _ => true
  | Entry.dir _ _ => false

mutual

/-- All entries at or beneath one entry, paired with their paths as
component lists; together with `walkList` this models the traversal
underlying `Path.rglob`. -/
def walkEntry : Entry → List (List String × Entry)
  | Entry.file n => [([n], Entry.file n)]
  | Entry.dir n es => ([n], Entry.dir n es) :: (walkList es).map (fun pe => (n :: pe.1, pe.2))

def walkList : List Entry → List (List String × Entry)
  | [] => []
  | e :: rest => walkEntry e ++ walkList rest

end

/-- Whether the glob pattern `*<pat>` matches a file name: `*` matches any
(possibly empty) prefix, so the name must end with the literal `pat`.
pathlib's glob does not special-case names starting with a dot. -/
def nameEndsWith (nm pat : String) : Bool :=
  pat.data.isSuffixOf nm.data

/-- CPython `PurePath.suffix`: the substring from the last dot of the
name, provided that dot is neither the first nor the last character;
empty otherwise. -/
def pathSuffix (nm : String) : String :=
  let cs := nm.data
  let r := cs.reverse
  match r.findIdx? (fun c => c == '.') with
  | none => ""
  | some j =>
    if 0 < cs.length - 1 - j ∧ cs.length - 1 - j < cs.length - 1 then
      String.mk ('.' :: (r.take j).reverse)
    else ""

/-- `get_manifest_files(path, recursive)` of the script.  The root is
`none` when the path does not exist (the source then returns the empty
list).  Recursive mode models `rglob("*.yaml")` then `rglob("*.yml")`
followed by the `is_file()` filter; non-recursive mode models `iterdir()`
filtered by `is_file()` and `suffix in` the two extensions.  Results are
paths as component lists relative to the root; the ordering of the Python
result depends on filesystem and set-iteration order, so properties are
stated via membership. -/
def get_manifest_files (root : Option (List Entry)) (recursive : Bool) : List (List String) :=
  match root with
  | none => []
  | some es =>
    if recursive then
      (((walkList es).filter (fun pe => nameEndsWith (ename pe.2) ".yaml")
        ++ (walkList es).filter (fun pe => nameEndsWith (ename pe.2) ".yml")).filter
          (fun pe => isFile pe.2)).map (fun pe => pe.1)
    else
      (es.filter (fun e => isFile e &&
        (pathSuffix (ename e) == ".yaml" || pathSuffix (ename e) == ".yml"))).map
        (fun e => [ename e])

/-! ### Lemmas about the dictionary operations -/

theorem mapGet_mapSet_self (kvs : Obj) (k : String) (v : Yaml) :
    mapGet (mapSet kvs k v) k = some v := by
  induction kvs with
  | nil => simp [mapGet, mapSet]
  | cons hd tl ih =>
    obtain ⟨k', v'⟩ := hd
    by_cases h : k' = k <;> simp [mapGet, mapSet, h, ih]

theorem mapGet_mapSet_ne (kvs : Obj) {k k' : String} (v : Yaml) (h : k ≠ k') :
    mapGet (mapSet kvs k v) k' = mapGet kvs k' := by
  induction kvs with
  | nil => simp [mapGet, mapSet, h]
  | cons hd tl ih =>
    obtain ⟨k₀, v₀⟩ := hd
    by_cases h₀ : k₀ = k
    · subst h₀
      simp [mapGet, mapSet, h]
    · simp [mapGet, mapSet, h₀, ih]

theorem mapSet_mapSet_self (kvs : Obj) (k : String) (v v' : Yaml) :
    mapSet (mapSet kvs k v) k v' = mapSet kvs k v' := by
  induction kvs with
  | nil => simp [mapSet]
  | cons hd tl ih =>
    obtain ⟨k₀, v₀⟩ := hd
    by_cases h₀ : k₀ = k <;> simp [mapSet, h₀, ih]

theorem mapSet_get_self (kvs : Obj) {k : String} {v : Yaml}
    (h : mapGet kvs k = some v) : mapSet kvs k v = kvs := by
  induction kvs with
  | nil => simp [mapGet] at h
  | cons hd tl ih =>
    obtain ⟨k₀, v₀⟩ := hd
    by_cases h₀ : k₀ = k
    · subst h₀
      simp [mapGet] at h
      simp [mapSet, h]
    · simp [mapGet, h₀] at h
      simp [mapSet, h₀, ih h]

/-! ### Lemmas about annotate -/

theorem annotate_eq {m : Obj} (p : String) {md ann : Obj}
    (hmd : getObjOr (mapGet m "metadata") = some md)
    (hann : getObjOr (mapGet md "annotations") = some ann) :
    annotate m p = some (mapSet m "metadata" (Yaml.map (mapSet md "annotations"
      (Yaml.map (mapSet (mapSet ann PKO_PHASE_KEY (Yaml.str p))
        PKO_COLLISION_PROTECTION_KEY (Yaml.str PKO_COLLISION_PROTECTION_VALUE)))))) := by
  unfold annotate
  simp only [hmd, hann]

theorem annotate_inv {m : Obj} {p : String} {m2 : Obj} (h : annotate m p = some m2) :
    ∃ md ann, getObjOr (mapGet m "metadata") = some md ∧
      getObjOr (mapGet md "annotations") = some ann ∧
      m2 = mapSet m "metadata" (Yaml.map (mapSet md "annotations"
        (Yaml.map (mapSet (mapSet ann PKO_PHASE_KEY (Yaml.str p))
          PKO_COLLISION_PROTECTION_KEY (Yaml.str PKO_COLLISION_PROTECTION_VALUE))))) := by
  unfold annotate at h
  split at h
  · exact absurd h (by simp)
  next md hmd =>
    split at h
    · exact absurd h (by simp)
    next ann hann =>
      exact ⟨md, ann, hmd, hann, (Option.some.inj h).symm⟩

/-- Claim C3: for every manifest and every phase string, applying annotate
twice with the same phase yields the same manifest as applying it once
(so in particular its metadata annotations are identical): whenever
`annotate m p` succeeds with result `m2`, annotating `m2` again with the
same phase succeeds and returns `m2` unchanged. -/
theorem claim_C3_annotate_idempotent (m : Obj) (p : String) (m2 : Obj)
    (h : annotate m p = some m2) : annotate m2 p = some m2 := by
  have hne : PKO_COLLISION_PROTECTION_KEY ≠ PKO_PHASE_KEY := by decide
  obtain ⟨md, ann, hmd, hann, hm2⟩ := annotate_inv h
  subst hm2
  set A : Obj := mapSet (mapSet ann PKO_PHASE_KEY (Yaml.str p))
    PKO_COLLISION_PROTECTION_KEY (Yaml.str PKO_COLLISION_PROTECTION_VALUE) with hA
  set MD2 : Obj := mapSet md "annotations" (Yaml.map A) with hMD2
  set M2 : Obj := mapSet m "metadata" (Yaml.map MD2) with hM2
  have g1 : mapGet M2 "metadata" = some (Yaml.map MD2) := by
    rw [hM2]; exact mapGet_mapSet_self _ _ _
  have g2 : mapGet MD2 "annotations" = some (Yaml.map A) := by
    rw [hMD2]; exact mapGet_mapSet_self _ _ _
  have e1 : getObjOr (mapGet M2 "metadata") = some MD2 := by rw [g1]; rfl
  have e2 : getObjOr (mapGet MD2 "annotations") = some A := by rw [g2]; rfl
  have hA1 : mapGet A PKO_PHASE_KEY = some (Yaml.str p) := by
    rw [hA, mapGet_mapSet_ne _ _ hne, mapGet_mapSet_self]
  have hA3 : mapGet A PKO_COLLISION_PROTECTION_KEY
      = some (Yaml.str PKO_COLLISION_PROTECTION_VALUE) := by
    rw [hA]; exact mapGet_mapSet_self _ _ _
  rw [annotate_eq p e1 e2, mapSet_get_self _ hA1, mapSet_get_self _ hA3,
    mapSet_get_self _ g2, mapSet_get_self _ g1]

/-- Witness for claim C3: annotating an already-annotated ServiceAccount
manifest once more with the same phase returns it unchanged. -/
theorem claim_C3_witness :
    annotate
      [("kind", Yaml.str "ServiceAccount"),
       ("metadata", Yaml.map [("annotations", Yaml.map
         [(PKO_PHASE_KEY, Yaml.str "rbac"),
          (PKO_COLLISION_PROTECTION_KEY, Yaml.str PKO_COLLISION_PROTECTION_VALUE)])])] "rbac"
    = some
      [("kind", Yaml.str "ServiceAccount"),
       ("metadata", Yaml.map [("annotations", Yaml.map
         [(PKO_PHASE_KEY, Yaml.str "rbac"),
          (PKO_COLLISION_PROTECTION_KEY, Yaml.str PKO_COLLISION_PROTECTION_VALUE)])])] :=
  claim_C3_annotate_idempotent [("kind", Yaml.str "ServiceAccount")] "rbac" _ rfl

/-- Claim C1: for every operator name, the descriptor document returned by
`get_pko_manifest` contains exactly six phases under `spec.phases`, in the
fixed order crds, namespace, rbac, deploy, cleanup-rbac, cleanup-deploy;
the operator name does not influence the phase list. -/
theorem claim_C1_pko_manifest_phases (operator_name : String) :
    ∃ ps : List Yaml, phasesOf (get_pko_manifest operator_name) = some (Yaml.arr ps) ∧
      ps.length = 6 ∧
      ps = [Yaml.map [("name", Yaml.str "crds")],
            Yaml.map [("name", Yaml.str "namespace")],
            Yaml.map [("name", Yaml.str "rbac")],
            Yaml.map [("name", Yaml.str "deploy")],
            Yaml.map [("name", Yaml.str "cleanup-rbac")],
            Yaml.map [("name", Yaml.str "cleanup-deploy")]] :=
  ⟨_, rfl, rfl, rfl⟩

/-! ### Lemmas about set_image_template -/

theorem containersOf_inv {m : Obj} {y : Yaml} (h : containersOf m = some y) :
    ∃ sp tp ts, mapGet m "spec" = some (Yaml.map sp) ∧
      mapGet sp "template" = some (Yaml.map tp) ∧
      mapGet tp "spec" = some (Yaml.map ts) ∧
      mapGet ts "containers" = some y := by
  unfold containersOf at h
  split at h
  next sp hsp =>
    split at h
    next tp htp =>
      split at h
      next ts hts => exact ⟨sp, tp, ts, hsp, htp, hts, h⟩
      next => exact absurd h (by simp)
    next => exact absurd h (by simp)
  next => exact absurd h (by simp)

theorem set_image_template_eq {m : Obj} {sp tp ts : Obj} {cs : List Yaml}
    (h1 : mapGet m "spec" = some (Yaml.map sp))
    (h2 : mapGet sp "template" = some (Yaml.map tp))
    (h3 : mapGet tp "spec" = some (Yaml.map ts))
    (h4 : mapGet ts "containers" = some (Yaml.arr cs)) :
    set_image_template m = mapSet m "spec" (Yaml.map (mapSet sp "template"
      (Yaml.map (mapSet tp "spec" (Yaml.map (mapSet ts "containers"
        (Yaml.arr (setImages cs)))))))) := by
  unfold set_image_template
  simp only [h1, h2, h3, h4]

theorem containersOf_set {m : Obj} {sp tp ts : Obj} {cs : List Yaml}
    (h1 : mapGet m "spec" = some (Yaml.map sp))
    (h2 : mapGet sp "template" = some (Yaml.map tp))
    (h3 : mapGet tp "spec" = some (Yaml.map ts))
    (h4 : mapGet ts "containers" = some (Yaml.arr cs)) :
    containersOf (set_image_template m) = some (Yaml.arr (setImages cs)) := by
  rw [set_image_template_eq h1 h2 h3 h4]
  unfold containersOf
  simp only [mapGet_mapSet_self]

theorem set_image_template_no_path {m : Obj} (h : containersOf m = none) :
    set_image_template m = m := by
  unfold set_image_template
  split
  next sp hsp =>
    split
    next tp htp =>
      split
      next ts hts =>
        split
        next cs hcs =>
          have hc : containersOf m = some (Yaml.arr cs) := by
            unfold containersOf
            simp only [hsp, htp, hts, hcs]
          rw [hc] at h
          exact absurd h (by simp)
        next => rfl
      next => rfl
    next => rfl
  next => rfl

theorem setImages_of_maps {cs : List Yaml} (h : ∀ c ∈ cs, isMap c = true) :
    setImages cs = cs.map setImg := by
  induction cs with
  | nil => rfl
  | cons c rest ih =>
    have hc := h c (List.mem_cons_self _ _)
    cases c with
    | map kvs =>
      simp only [setImages, setImg, List.map_cons]
      rw [ih fun x hx => h x (List.mem_cons_of_mem _ hx)]
    | null => simp [isMap] at hc
    | bool b => simp [isMap] at hc
    | int n => simp [isMap] at hc
    | str s => simp [isMap] at hc
    | arr xs => simp [isMap] at hc

theorem setImages_stops {pre : List Yaml} {bad : Yaml} {rest : List Yaml}
    (hpre : ∀ c ∈ pre, isMap c = true) (hbad : isMap bad = false) :
    setImages (pre ++ bad :: rest) = pre.map setImg ++ bad :: rest := by
  induction pre with
  | nil =>
    simp only [List.nil_append, List.map_nil]
    cases bad with
    | map kvs => simp [isMap] at hbad
    | null => rfl
    | bool b => rfl
    | int n => rfl
    | str s => rfl
    | arr xs => rfl
  | cons c pre ih =>
    have hc := hpre c (List.mem_cons_self _ _)
    cases c with
    | map kvs =>
      simp only [List.cons_append, setImages, setImg, List.map_cons]
      exact congrArg _ (ih fun x hx => hpre x (List.mem_cons_of_mem _ hx))
    | null => simp [isMap] at hc
    | bool b => simp [isMap] at hc
    | int n => simp [isMap] at hc
    | str s => simp [isMap] at hc
    | arr xs => simp [isMap] at hc

theorem yGet_setImg_image {c : Yaml} (h : isMap c = true) :
    yGet (setImg c) "image" = some (Yaml.str imageTemplateValue) := by
  cases c with
  | map kvs => simp [setImg, yGet, mapGet_mapSet_self]
  | null => simp [isMap] at h
  | bool b => simp [isMap] at h
  | int n => simp [isMap] at h
  | str s => simp [isMap] at h
  | arr xs => simp [isMap] at h

/-- Claim C2: annotating a Deployment does not disturb the nested container
path (first conjunct); when the nested path
`spec.template.spec.containers` holds a list of N dictionary containers,
`set_image_template` replaces all N image fields with the exact
placeholder token (second conjunct: the resulting list is the pointwise
update, it keeps length N, and every element's image field is the
placeholder token); a manifest lacking the nested path is returned
unchanged rather than failing (third conjunct). -/
theorem claim_C2_image_template :
    (∀ m p m2, annotate m p = some m2 → containersOf m2 = containersOf m) ∧
    (∀ m cs, containersOf m = some (Yaml.arr cs) → (∀ c ∈ cs, isMap c = true) →
      containersOf (set_image_template m) = some (Yaml.arr (cs.map setImg)) ∧
      (cs.map setImg).length = cs.length ∧
      ∀ c ∈ cs.map setImg, yGet c "image" = some (Yaml.str imageTemplateValue)) ∧
    (∀ m, containersOf m = none → set_image_template m = m) := by
  refine ⟨?_, ?_, ?_⟩
  · intro m p m2 h
    obtain ⟨md, ann, hmd, hann, hm2⟩ := annotate_inv h
    subst hm2
    unfold containersOf
    rw [mapGet_mapSet_ne _ _ (by decide : ("metadata" : String) ≠ "spec")]
  · intro m cs h hmaps
    obtain ⟨sp, tp, ts, h1, h2, h3, h4⟩ := containersOf_inv h
    refine ⟨?_, by simp, ?_⟩
    · rw [containersOf_set h1 h2 h3 h4, setImages_of_maps hmaps]
    · intro c hc
      obtain ⟨c0, hc0, rfl⟩ := List.mem_map.mp hc
      exact yGet_setImg_image (hmaps c0 hc0)
  · intro m h
    exact set_image_template_no_path h

/-- Witness for claim C2: a concrete one-container Deployment gets its
image replaced by the placeholder; a concrete manifest without the nested
path is unchanged; a concrete annotated manifest keeps its container
path. -/
theorem claim_C2_witness :
    containersOf (set_image_template
      [("kind", Yaml.str "Deployment"),
       ("spec", Yaml.map [("template", Yaml.map [("spec", Yaml.map [("containers",
         Yaml.arr [Yaml.map [("name", Yaml.str "operator"),
                             ("image", Yaml.str "quay.io/openshift/test:v1.0")]])])])])])
      = some (Yaml.arr [Yaml.map [("name", Yaml.str "operator"),
                                  ("image", Yaml.str imageTemplateValue)]]) ∧
    set_image_template [("kind", Yaml.str "Service")] = [("kind", Yaml.str "Service")] ∧
    containersOf [("kind", Yaml.str "Deployment"),
      ("metadata", Yaml.map [("annotations", Yaml.map
        [(PKO_PHASE_KEY, Yaml.str "deploy"),
         (PKO_COLLISION_PROTECTION_KEY, Yaml.str PKO_COLLISION_PROTECTION_VALUE)])])]
      = containersOf [("kind", Yaml.str "Deployment")] := by
  refine ⟨?_, ?_, ?_⟩
  · exact (claim_C2_image_template.2.1
      [("kind", Yaml.str "Deployment"),
       ("spec", Yaml.map [("template", Yaml.map [("spec", Yaml.map [("containers",
         Yaml.arr [Yaml.map [("name", Yaml.str "operator"),
                             ("image", Yaml.str "quay.io/openshift/test:v1.0")]])])])])]
      [Yaml.map [("name", Yaml.str "operator"),
                 ("image", Yaml.str "quay.io/openshift/test:v1.0")]] rfl (by decide)).1
  · exact claim_C2_image_template.2.2 _ rfl
  · exact claim_C2_image_template.1 [("kind", Yaml.str "Deployment")] "deploy" _ rfl

/-- Claim C10: `set_image_template` is total (the embedding is a total
function, mirroring the catch-all `except (KeyError, TypeError): pass` of
the source), but not atomic on error: when the containers list is a
well-formed prefix of dictionaries followed by a non-dictionary element,
every container of the prefix has its image field replaced with the
placeholder while the offending element and everything after it are left
untouched, and the failure is swallowed (a manifest is still returned). -/
theorem claim_C10_partial_mutation (m : Obj) (pre : List Yaml) (bad : Yaml) (rest : List Yaml)
    (h : containersOf m = some (Yaml.arr (pre ++ bad :: rest)))
    (hpre : ∀ c ∈ pre, isMap c = true) (hbad : isMap bad = false) :
    containersOf (set_image_template m) = some (Yaml.arr (pre.map setImg ++ bad :: rest)) ∧
    ∀ c ∈ pre.map setImg, yGet c "image" = some (Yaml.str imageTemplateValue) := by
  obtain ⟨sp, tp, ts, h1, h2, h3, h4⟩ := containersOf_inv h
  refine ⟨?_, ?_⟩
  · rw [containersOf_set h1 h2 h3 h4, setImages_stops hpre hbad]
  · intro c hc
    obtain ⟨c0, hc0, rfl⟩ := List.mem_map.mp hc
    exact yGet_setImg_image (hpre c0 hc0)

/-- Witness for claim C10: with containers `[dict, "oops", dict]` the
first dictionary is rewritten, the string and the dictionary after it are
untouched. -/
theorem claim_C10_witness :
    containersOf (set_image_template
      [("spec", Yaml.map [("template", Yaml.map [("spec", Yaml.map [("containers",
        Yaml.arr [Yaml.map [("image", Yaml.str "a")],
                  Yaml.str "oops",
                  Yaml.map [("image", Yaml.str "b")]])])])])])
    = some (Yaml.arr [Yaml.map [("image", Yaml.str imageTemplateValue)],
                      Yaml.str "oops",
                      Yaml.map [("image", Yaml.str "b")]]) :=
  (claim_C10_partial_mutation
    [("spec", Yaml.map [("template", Yaml.map [("spec", Yaml.map [("containers",
      Yaml.arr [Yaml.map [("image", Yaml.str "a")],
                Yaml.str "oops",
                Yaml.map [("image", Yaml.str "b")]])])])])]
    [Yaml.map [("image", Yaml.str "a")]]
    (Yaml.str "oops")
    [Yaml.map [("image", Yaml.str "b")]]
    rfl (by decide) (by decide)).1

/-! ### Lemmas about annotate_manifests -/

theorem annotate_manifests_append (xs ys : List ParseResult) :
    annotate_manifests (xs ++ ys) = amCombine (annotate_manifests xs) (annotate_manifests ys) := by
  induction xs with
  | nil =>
    show annotate_manifests ys = amCombine (some ([], [])) (annotate_manifests ys)
    cases h : annotate_manifests ys with
    | none => rfl
    | some p =>
      obtain ⟨ms, ds⟩ := p
      simp [amCombine]
  | cons r rest ih =>
    cases hp : processItem r with
    | abort =>
      simp only [List.cons_append, annotate_manifests, hp, amCombine]
    | keep m ds =>
      cases h2 : annotate_manifests rest with
      | none =>
        simp only [List.cons_append, annotate_manifests, hp, List.append_eq, ih, h2, amCombine]
      | some p =>
        obtain ⟨ms, ds2⟩ := p
        cases h3 : annotate_manifests ys with
        | none =>
          simp only [List.cons_append, annotate_manifests, hp, List.append_eq, ih, h2, h3,
            amCombine]
        | some q =>
          obtain ⟨ms2, ds3⟩ := q
          simp only [List.cons_append, annotate_manifests, hp, List.append_eq, ih, h2, h3,
            amCombine]
          simp [List.append_assoc]
    | drop ds =>
      cases h2 : annotate_manifests rest with
      | none =>
        simp only [List.cons_append, annotate_manifests, hp, List.append_eq, ih, h2, amCombine]
      | some p =>
        obtain ⟨ms, ds2⟩ := p
        cases h3 : annotate_manifests ys with
        | none =>
          simp only [List.cons_append, annotate_manifests, hp, List.append_eq, ih, h2, h3,
            amCombine]
        | some q =>
          obtain ⟨ms2, ds3⟩ := q
          simp only [List.cons_append, annotate_manifests, hp, List.append_eq, ih, h2, h3,
            amCombine]
          simp [List.append_assoc]

/-- Claim C7: a document that fails to parse as YAML contributes one
diagnostic and no output document, and the remaining documents before and
after it are processed exactly as they would have been without it: a
single malformed document never aborts the run. -/
theorem claim_C7_parse_error_recovered (pre post : List ParseResult)
    (ms1 ms2 : List Obj) (ds1 ds2 : List String)
    (h1 : annotate_manifests pre = some (ms1, ds1))
    (h2 : annotate_manifests post = some (ms2, ds2)) :
    annotate_manifests (pre ++ ParseResult.err :: post)
      = some (ms1 ++ ms2, ds1 ++ parseErrorDiag :: ds2) := by
  have hstep : processItem ParseResult.err = ItemStep.drop [parseErrorDiag] := rfl
  have hmid : annotate_manifests (ParseResult.err :: post) = some (ms2, parseErrorDiag :: ds2) := by
    simp only [annotate_manifests, hstep, h2]
    rfl
  rw [annotate_manifests_append, h1, hmid]
  rfl

/-- Witness for claim C7: a ServiceAccount document, then a malformed
document, then a Service document; the malformed one yields exactly the
diagnostic and both neighbours are processed. -/
theorem claim_C7_witness :
    annotate_manifests
      [ParseResult.ok (Yaml.map [("kind", Yaml.str "ServiceAccount")]),
       ParseResult.err,
       ParseResult.ok (Yaml.map [("kind", Yaml.str "Service")])]
    = some
      ([[("kind", Yaml.str "ServiceAccount"),
         ("metadata", Yaml.map [("annotations", Yaml.map
           [(PKO_PHASE_KEY, Yaml.str "rbac"),
            (PKO_COLLISION_PROTECTION_KEY, Yaml.str PKO_COLLISION_PROTECTION_VALUE)])])],
        [("kind", Yaml.str "Service"),
         ("metadata", Yaml.map [("annotations", Yaml.map
           [(PKO_PHASE_KEY, Yaml.str "deploy"),
            (PKO_COLLISION_PROTECTION_KEY, Yaml.str PKO_COLLISION_PROTECTION_VALUE)])])]],
       [parseErrorDiag]) :=
  claim_C7_parse_error_recovered
    [ParseResult.ok (Yaml.map [("kind", Yaml.str "ServiceAccount")])]
    [ParseResult.ok (Yaml.map [("kind", Yaml.str "Service")])]
    _ _ _ _ rfl rfl

/-- Claim C9: a successfully parsed document that is not a key-value
mapping (a YAML sequence, scalar, or empty document) is silently omitted:
it contributes no output document and no diagnostic, and the rest of the
input is processed unchanged. -/
theorem claim_C9_non_mapping_silent (v : Yaml) (hv : isMap v = false)
    (pre post : List ParseResult) (ms1 ms2 : List Obj) (ds1 ds2 : List String)
    (h1 : annotate_manifests pre = some (ms1, ds1))
    (h2 : annotate_manifests post = some (ms2, ds2)) :
    annotate_manifests (pre ++ ParseResult.ok v :: post) = some (ms1 ++ ms2, ds1 ++ ds2) := by
  have hstep : processItem (ParseResult.ok v) = ItemStep.drop [] := by
    cases v with
    | map kvs => simp [isMap] at hv
    | null => rfl
    | bool b => rfl
    | int n => rfl
    | str s => rfl
    | arr xs => rfl
  have hmid : annotate_manifests (ParseResult.ok v :: post) = some (ms2, ds2) := by
    simp only [annotate_manifests, hstep, h2]
    rfl
  rw [annotate_manifests_append, h1, hmid]
  rfl

/-- Witness for claim C9: a parsed empty list between two documents is
dropped with no diagnostic. -/
theorem claim_C9_witness :
    annotate_manifests
      [ParseResult.ok (Yaml.map [("kind", Yaml.str "ServiceAccount")]),
       ParseResult.ok (Yaml.arr [Yaml.str "x"])]
    = some
      ([[("kind", Yaml.str "ServiceAccount"),
         ("metadata", Yaml.map [("annotations", Yaml.map
           [(PKO_PHASE_KEY, Yaml.str "rbac"),
            (PKO_COLLISION_PROTECTION_KEY, Yaml.str PKO_COLLISION_PROTECTION_VALUE)])])]],
       []) :=
  claim_C9_non_mapping_silent (Yaml.arr [Yaml.str "x"]) (by decide)
    [ParseResult.ok (Yaml.map [("kind", Yaml.str "ServiceAccount")])]
    [] _ _ _ _ rfl rfl

/-- Claim C8 (amended): parse failures are never silent: every run that
completes prints at least as many diagnostics as there were YAML parse
failures in the input.  (The unamended claim is false: two recovered
per-item failures are silent, see the counterexample.) -/
theorem claim_C8_parse_errors_diagnosed (rs : List ParseResult)
    (ms : List Obj) (ds : List String)
    (h : annotate_manifests rs = some (ms, ds)) :
    rs.countP isErr ≤ ds.length := by
  induction rs generalizing ms ds with
  | nil =>
    simp only [annotate_manifests] at h
    cases h
    simp
  | cons r rest ih =>
    cases r with
    | err =>
      have hstep : processItem ParseResult.err = ItemStep.drop [parseErrorDiag] := rfl
      simp only [annotate_manifests, hstep] at h
      cases h2 : annotate_manifests rest with
      | none => rw [h2] at h; exact absurd h (by simp)
      | some p =>
        obtain ⟨ms2, ds2⟩ := p
        simp only [h2] at h
        cases h
        have := ih _ _ h2
        simp [List.countP_cons, isErr]
        omega
    | ok v =>
      simp only [annotate_manifests] at h
      cases hp : processItem (ParseResult.ok v) with
      | abort => simp only [hp] at h; exact absurd h (by simp)
      | keep m ds0 =>
        simp only [hp] at h
        cases h2 : annotate_manifests rest with
        | none => simp only [h2] at h; exact absurd h (by simp)
        | some p =>
          obtain ⟨ms2, ds2⟩ := p
          simp only [h2] at h
          cases h
          have := ih _ _ h2
          simp [List.countP_cons, isErr]
          omega
      | drop ds0 =>
        simp only [hp] at h
        cases h2 : annotate_manifests rest with
        | none => simp only [h2] at h; exact absurd h (by simp)
        | some p =>
          obtain ⟨ms2, ds2⟩ := p
          simp only [h2] at h
          cases h
          have := ih _ _ h2
          simp [List.countP_cons, isErr]
          omega

/-- Witness for claim C8 (amended form): a single malformed document
yields one diagnostic, at least as many as the one parse failure. -/
theorem claim_C8_witness :
    List.countP isErr [ParseResult.err] ≤ [parseErrorDiag].length :=
  claim_C8_parse_errors_diagnosed [ParseResult.err] [] [parseErrorDiag] rfl

/-- Counterexample to claim C8 as stated: two recovered per-item failures
produce no diagnostic at all.  A parsed document that is not a mapping is
dropped silently (first conjunct: no output, no diagnostic), and a
Deployment whose image substitution fails to find the nested containers
path is kept unchanged apart from its phase keys, again with no
diagnostic (second conjunct). -/
theorem claim_C8_counterexample :
    annotate_manifests [ParseResult.ok (Yaml.arr [Yaml.str "x"])] = some ([], []) ∧
    annotate_manifests [ParseResult.ok (Yaml.map
      [("kind", Yaml.str "Deployment"), ("metadata", Yaml.map [])])]
    = some
      ([[("kind", Yaml.str "Deployment"),
         ("metadata", Yaml.map [("annotations", Yaml.map
           [(PKO_PHASE_KEY, Yaml.str "deploy"),
            (PKO_COLLISION_PROTECTION_KEY, Yaml.str PKO_COLLISION_PROTECTION_VALUE)])])]],
       []) :=
  ⟨rfl, rfl⟩

/-! ### Theorems about write_manifest -/

/-- Claim C4 (amended): for every manifest whose kind is filtered (absent,
null, ClusterPackage, Package or PackageManifest), `write_manifest` with
force=false writes no file; with force=true it writes exactly one file
provided the name extraction does not raise, that is, provided metadata,
when present, is a dictionary.  The unamended claim fails because the
source extracts the name before the kind filter and before any write, so
a non-dictionary metadata value raises AttributeError; see the
counterexample. -/
theorem claim_C4_kind_filter (m : Obj) (filename : Option String)
    (hk : kindFiltered (mapGet m "kind") = true) :
    filesWritten (write_manifest m filename false) = 0 ∧
    (∀ nv, getNameField m = some nv → filesWritten (write_manifest m filename true) = 1) := by
  constructor
  · cases hn : getNameField m with
    | none => simp [write_manifest, hn, filesWritten]
    | some nv => simp [write_manifest, hn, hk, filesWritten]
  · intro nv hn
    cases filename with
    | some f => simp [write_manifest, hn, filesWritten]
    | none => simp [write_manifest, hn, filesWritten]

/-- Witness for claim C4 (amended form): a concrete ClusterPackage
manifest with dictionary metadata is skipped without force and written
with force. -/
theorem claim_C4_witness :
    filesWritten (write_manifest [("kind", Yaml.str "ClusterPackage"),
      ("metadata", Yaml.map [("name", Yaml.str "t")])] none false) = 0 ∧
    filesWritten (write_manifest [("kind", Yaml.str "ClusterPackage"),
      ("metadata", Yaml.map [("name", Yaml.str "t")])] none true) = 1 := by
  have h := claim_C4_kind_filter [("kind", Yaml.str "ClusterPackage"),
    ("metadata", Yaml.map [("name", Yaml.str "t")])] none (by decide)
  exact ⟨h.1, h.2 (Yaml.str "t") rfl⟩

/-- Counterexample to claim C4 as stated: a ClusterPackage manifest whose
metadata is the string "x".  With force=true the name extraction
`manifest.get("metadata", ...).get("name", "unknown")` raises
AttributeError before anything is written, so zero files are produced
instead of the claimed exactly one. -/
theorem claim_C4_counterexample :
    write_manifest [("kind", Yaml.str "ClusterPackage"), ("metadata", Yaml.str "x")] none true
      = WriteResult.raised ∧
    filesWritten (write_manifest [("kind", Yaml.str "ClusterPackage"),
      ("metadata", Yaml.str "x")] none true) = 0 :=
  ⟨rfl, rfl⟩

/-- Claim C6: every manifest written with no explicit filename gets the
file name kind-name followed by ".yaml.gotmpl" when the kind is
Deployment and ".yaml" for every other kind (stated for string-valued
kind and name, which the f-string interpolates verbatim). -/
theorem claim_C6_default_filename (m : Obj) (force : Bool) (k nv fn : String)
    (hk : mapGet m "kind" = some (Yaml.str k))
    (hn : getNameField m = some (Yaml.str nv))
    (hw : write_manifest m none force = WriteResult.written fn) :
    fn = k ++ "-" ++ nv ++ (if k = "Deployment" then ".yaml.gotmpl" else ".yaml") := by
  simp only [write_manifest, hn, hk] at hw
  cases hb : (!force && kindFiltered (some (Yaml.str k))) with
  | true => simp [hb] at hw
  | false =>
    simp [hb, pyStrOpt, pyStr] at hw
    rw [← hw]

/-- Witness for claim C6: a concrete Deployment written with the default
filename carries the template extension. -/
theorem claim_C6_witness :
    ("Deployment-test-deploy.yaml.gotmpl" : String)
      = "Deployment" ++ "-" ++ "test-deploy" ++
        (if ("Deployment" : String) = "Deployment" then ".yaml.gotmpl" else ".yaml") :=
  claim_C6_default_filename
    [("kind", Yaml.str "Deployment"), ("metadata", Yaml.map [("name", Yaml.str "test-deploy")])]
    false "Deployment" "test-deploy" "Deployment-test-deploy.yaml.gotmpl" rfl rfl rfl

/-! ### Theorems about get_manifest_files -/

theorem mem_gmf_nonrec {es : List Entry} {p : List String} :
    p ∈ get_manifest_files (some es) false ↔
      ∃ n, p = [n] ∧ Entry.file n ∈ es ∧
        (pathSuffix n = ".yaml" ∨ pathSuffix n = ".yml") := by
  simp only [get_manifest_files, Bool.false_eq_true, if_false, List.mem_map, List.mem_filter]
  constructor
  · rintro ⟨e, ⟨he, hq⟩, rfl⟩
    cases e with
    | file n =>
      simp only [isFile, Bool.true_and, Bool.or_eq_true, beq_iff_eq] at hq
      exact ⟨n, rfl, he, hq⟩
    | dir n es2 => simp [isFile] at hq
  · rintro ⟨n, rfl, hmem, hsuf⟩
    refine ⟨Entry.file n, ⟨hmem, ?_⟩, rfl⟩
    simp only [isFile, Bool.true_and, Bool.or_eq_true, beq_iff_eq]
    exact hsuf

theorem mem_gmf_rec {es : List Entry} {p : List String} :
    p ∈ get_manifest_files (some es) true ↔
      ∃ e, (p, e) ∈ walkList es ∧ isFile e = true ∧
        (nameEndsWith (ename e) ".yaml" = true ∨ nameEndsWith (ename e) ".yml" = true) := by
  simp only [get_manifest_files, if_true, List.mem_map, List.mem_filter, List.mem_append]
  constructor
  · rintro ⟨⟨q, e⟩, ⟨hin, hf⟩, rfl⟩
    cases hin with
    | inl hy => exact ⟨e, hy.1, hf, Or.inl hy.2⟩
    | inr hy => exact ⟨e, hy.1, hf, Or.inr hy.2⟩
  · rintro ⟨e, hw, hf, hend⟩
    refine ⟨(p, e), ⟨?_, hf⟩, rfl⟩
    cases hend with
    | inl hy => exact Or.inl ⟨hw, hy⟩
    | inr hy => exact Or.inr ⟨hw, hy⟩

/-- Claim C5 (amended): a non-existent root yields the empty list; in
non-recursive mode the result is exactly the regular files directly under
the root whose CPython path suffix is ".yaml" or ".yml"; in recursive
mode it is exactly the regular files anywhere beneath the root whose name
ends with ".yaml" or ".yml" (the glob criterion).  The two criteria agree
except on files named exactly ".yaml" or ".yml", which have an empty path
suffix but match the glob; a ".txt" file satisfies neither and is never
returned.  The unamended claim, which uses one extension notion for both
modes, fails on such a file: see the counterexample. -/
theorem claim_C5_discovery :
    (∀ r, get_manifest_files none r = []) ∧
    (∀ es (p : List String), p ∈ get_manifest_files (some es) false ↔
      ∃ n, p = [n] ∧ Entry.file n ∈ es ∧
        (pathSuffix n = ".yaml" ∨ pathSuffix n = ".yml")) ∧
    (∀ es (p : List String), p ∈ get_manifest_files (some es) true ↔
      ∃ e, (p, e) ∈ walkList es ∧ isFile e = true ∧
        (nameEndsWith (ename e) ".yaml" = true ∨ nameEndsWith (ename e) ".yml" = true)) :=
  ⟨fun _ => rfl, fun _ _ => mem_gmf_nonrec, fun _ _ => mem_gmf_rec⟩

/-- Witness for claim C5: on a root holding a.yaml and a.txt,
non-recursive discovery returns the YAML file. -/
theorem claim_C5_witness :
    [("a.yaml" : String)] ∈
      get_manifest_files (some [Entry.file "a.yaml", Entry.file "a.txt"]) false :=
  (claim_C5_discovery.2.1 [Entry.file "a.yaml", Entry.file "a.txt"] ["a.yaml"]).mpr
    ⟨"a.yaml", rfl, List.mem_cons_self _ _, Or.inl (by decide)⟩

/-- Counterexample to claim C5 as stated: a regular file named exactly
".yaml" directly under the root is returned by recursive discovery (the
glob pattern matches it) but not by non-recursive discovery (its CPython
path suffix is empty), so the two modes disagree on a file directly under
the root, contradicting any single notion of "files whose extension is
.yaml or .yml". -/
theorem claim_C5_counterexample :
    get_manifest_files (some [Entry.file ".yaml"]) true = [[".yaml"]] ∧
    get_manifest_files (some [Entry.file ".yaml"]) false = [] :=
  ⟨rfl, rfl⟩

end OlmPko
